import Mathlib

/-!
Verification of the CShell interpreter (src/main.c): a shallow embedding of its
tokenizer, builtin dispatch, process launcher and line acquisition, with
theorems settling the specified properties.

Conventions of the embedding:
- The observable state of the shell process is a World record: current working
  directory, accumulated standard output text, and the list of diagnostic
  messages written to standard error (each fprintf-to-stderr or perror call
  appends one entry, recorded by its format text).
- Builtin handlers return the C int control value unchanged: 1 means continue,
  0 means stop.
- Operating-system behavior that the C code consults (chdir success, fork
  success, the sequence of statuses waitpid reports, execvp success) is passed
  in explicitly as oracle data, so every path of the C code is a value of a
  total function.
-/

/-- EXIT_SUCCESS of stdlib.h. -/
def EXIT_SUCCESS : Nat := 0

/-- EXIT_FAILURE of stdlib.h. -/
def EXIT_FAILURE : Nat := 1

/-- Observable state of the shell process. -/
structure World where
  cwd : String
  stdout : String
  stderr : List String
  deriving DecidableEq

/-- A starting world used for concrete instantiations. -/
def World.init : World := { cwd := "/", stdout := "", stderr := [] }

/-- Oracle for the chdir system call: given the current working directory and
the requested path, returns the new working directory on success and none on
failure. On failure the working directory is unchanged, as POSIX guarantees. -/
structure OS where
  chdir : String → String → Option String

/-- An OS oracle on which every chdir call fails. -/
def OS.noDirs : OS := { chdir := fun _ _ => none }

-- List of builtin commands (builtin_str in main.c, lines 15-19).
def builtin_str : List String := ["cd", "help", "exit"]

/-- The cd builtin (main.c lines 39-50): with no argument it reports an error
to the diagnostic stream; otherwise it asks the OS to change directory and
reports an error if that fails. It always returns 1. -/
def cd (os : OS) (args : List String) (w : World) : Nat × World :=
  match args[1]? with
  | none => (1, { w with stderr := w.stderr ++ ["Error: Please specify a directory"] })
  | some dir =>
    match os.chdir w.cwd dir with
    | none => (1, { w with stderr := w.stderr ++ ["Error: Failed to change directory"] })
    | some c => (1, { w with cwd := c })

/-- The text the help builtin prints: a header line, then each builtin name
indented by two spaces on its own line (the printf loop of main.c lines 61-65). -/
def helpText : String :=
  builtin_str.foldl (fun acc s => acc ++ "  " ++ s ++ "\n")
    "The following are builtin commands:\n"

/-- The help builtin (main.c lines 58-67): prints helpText and returns 1. -/
def help (os : OS) (args : List String) (w : World) : Nat × World :=
  (1, { w with stdout := w.stdout ++ helpText })

/-- The exit builtin (exit_shell, main.c lines 75-78): ignores its arguments
and returns 0 so that the loop terminates. -/
def exit_shell (os : OS) (args : List String) (w : World) : Nat × World :=
  (0, w)

/-- The builtin dispatch table: names paired with handlers, in the order of
builtin_str and builtin_func in main.c. -/
def builtins : List (String × (OS → List String → World → Nat × World)) :=
  [("cd", cd), ("help", help), ("exit", exit_shell)]

/-- First handler whose name matches, mirroring the strcmp loop of
execute (main.c lines 124-128). -/
def lookupBuiltin (a : String) : Option (OS → List String → World → Nat × World) :=
  (builtins.find? (fun b => b.1 == a)).map (fun b => b.2)

/-- A status value as reported by waitpid with WUNTRACED: the child exited
with a code, was terminated by a signal, or is merely stopped. -/
inductive WaitStatus
  | exited (code : Nat)
  | signaled (sig : Nat)
  | stopped (sig : Nat)
  deriving DecidableEq

/-- WIFEXITED macro of sys/wait.h. -/
def WIFEXITED : WaitStatus → Bool
  | .exited _ => true
  | _ => false

/-- WIFSIGNALED macro of sys/wait.h. -/
def WIFSIGNALED : WaitStatus → Bool
  | .signaled _ => true
  | _ => false

/-- WIFSTOPPED macro of sys/wait.h. -/
def WIFSTOPPED : WaitStatus → Bool
  | .stopped _ => true
  | _ => false

/-- The parent wait loop of launch (main.c lines 103-105): repeatedly call
waitpid, stopping at the first status that is a true exit or a signal death.
The argument is the sequence of statuses successive waitpid calls report;
none means the sequence held no terminal status, i.e. the loop never exits. -/
def waitLoop : List WaitStatus → Option WaitStatus
  | [] => none
  | s :: rest => if WIFEXITED s || WIFSIGNALED s then some s else waitLoop rest

/-- Oracle for one launch: whether fork succeeds in the parent, and the
statuses waitpid would report for the child in order. -/
structure LaunchBehavior where
  forkOk : Bool
  waits : List WaitStatus

/-- The parent side of launch (main.c lines 86-108). If fork fails, perror
reports the failure and the function returns 1 at once. Otherwise the parent
blocks in the wait loop; it returns 1 when the loop finds a terminal status,
and never returns (none) when it does not. -/
def launch (lb : LaunchBehavior) (w : World) : Option (Nat × World) :=
  if lb.forkOk then
    match waitLoop lb.waits with
    | some _ => some (1, w)
    | none => none
  else
    some (1, { w with stderr := w.stderr ++ ["Error: Forking process failed"] })

/-- How the child side of launch (main.c lines 92-97) ends: the process image
was replaced by execvp, or the child called exit with a code after writing the
given diagnostics, or control fell through into the code after the branch
(the parent code path). -/
inductive ChildOutcome
  | execSuccess
  | exitedWith (msgs : List String) (code : Nat)
  | fellThrough
  deriving DecidableEq

/-- The child branch of launch: execvp either replaces the image (execOk) or
returns -1, in which case perror reports the failure; exit(EXIT_FAILURE) then
ends the child unconditionally. -/
def childRun (execOk : Bool) : ChildOutcome :=
  if execOk then .execSuccess
  else .exitedWith ["Error: Child process failed"] EXIT_FAILURE

/-- The dispatcher execute (main.c lines 115-130): empty vector is a no-op
returning 1; a first word naming a builtin invokes it; anything else goes to
launch. The option wraps the possibility that launch never returns. -/
def execute (os : OS) (lb : LaunchBehavior) (args : List String) (w : World) :
    Option (Nat × World) :=
  match args.head? with
  | none => some (1, w)
  | some a =>
    match lookupBuiltin a with
    | some h => some (h os args w)
    | none => launch lb w

/-- What one getline call against the input stream produced: a line of
characters, end of input, or a read error. -/
inductive ReadEvent
  | line (cs : List Char)
  | eof
  | failure

/-- How read_line ends: with a line handed to the caller, or by terminating
the whole process with the given exit code. -/
inductive ReadLineResult
  | got (cs : List Char)
  | exited (code : Nat)
  deriving DecidableEq

/-- read_line (main.c lines 132-146): on a line, return it; on end-of-input
with no error, exit the process with EXIT_SUCCESS; on any other getline
failure, perror and exit with EXIT_FAILURE. -/
def read_line : ReadEvent → World → ReadLineResult × World
  | .line cs, w => (.got cs, w)
  | .eof, w => (.exited EXIT_SUCCESS, w)
  | .failure, w => (.exited EXIT_FAILURE, { w with stderr := w.stderr ++ ["Error: readline error"] })

/-- Modelled from the spec and POSIX: the getline library call on a character
stream. It consumes up to and including the first newline; at end of input it
returns the characters read so far if there are any, and none (failure with
end-of-file set) only when no characters at all remain. -/
def getlineChars : List Char → Option (List Char × List Char)
  | [] => none
  | c :: cs =>
    if c = '\n' then some ([c], cs)
    else
      match getlineChars cs with
      | none => some ([c], [])
      | some (l, r) => some (c :: l, r)

/-- The ReadEvent a pure character stream produces for one getline call,
together with the rest of the stream. A pure stream never reports a read
error, only lines and end of input. -/
def eventOf (input : List Char) : ReadEvent × List Char :=
  match getlineChars input with
  | none => (.eof, [])
  | some (l, r) => (.line l, r)

/-- The delimiter characters of TOKEN_DELIM (main.c line 149): space, tab,
carriage return, newline, bell. -/
def TOKEN_DELIM : List Char := [' ', '\t', '\r', '\n', '\x07']

/-- Whether a character is one of the five token delimiters. -/
def isDelim (c : Char) : Bool := TOKEN_DELIM.contains c

/-- The strtok scan of split_line, with the characters of the token being
built held in reverse in acc: delimiters end the current token (if any) and
are dropped, other characters extend it. -/
def splitAux : List Char → List Char → List (List Char)
  | [], acc => if acc.isEmpty then [] else [acc.reverse]
  | c :: cs, acc =>
    if isDelim c then
      if acc.isEmpty then splitAux cs [] else acc.reverse :: splitAux cs []
    else
      splitAux cs (c :: acc)

/-- split_line (main.c lines 155-185): split a line into the list of maximal
delimiter-free runs, delimiters discarded. -/
def split_line (l : List Char) : List (List Char) := splitAux l []

/-- Join tokens with a single space between them, for the round-trip
property. -/
def joinWithSpace : List (List Char) → List Char
  | [] => []
  | [t] => t
  | t :: ts => t ++ ' ' :: joinWithSpace ts

/-- A launch oracle that is never consulted: builtin dispatches ignore it. -/
def noLaunch : LaunchBehavior := { forkOk := false, waits := [] }

/-! ### Helper lemmas about the tokenizer -/

theorem splitAux_tokens : ∀ (l acc : List Char), (∀ c ∈ acc, isDelim c = false) →
    ∀ t ∈ splitAux l acc, t ≠ [] ∧ ∀ c ∈ t, isDelim c = false := by
  intro l
  induction l with
  | nil =>
    intro acc hacc t ht
    simp only [splitAux] at ht
    by_cases h : acc.isEmpty
    · simp [h] at ht
    · simp [h] at ht
      subst ht
      refine ⟨by simpa [List.isEmpty_iff] using h, ?_⟩
      intro c hc
      exact hacc c (List.mem_reverse.mp hc)
  | cons c cs ih =>
    intro acc hacc t ht
    simp only [splitAux] at ht
    by_cases hd : isDelim c
    · simp only [hd, if_true] at ht
      by_cases he : acc.isEmpty
      · simp only [he, if_true] at ht
        exact ih [] (by simp) t ht
      · simp only [he, if_false] at ht
        rcases List.mem_cons.mp ht with rfl | ht2
        · refine ⟨by simpa [List.isEmpty_iff] using he, ?_⟩
          intro x hx
          exact hacc x (List.mem_reverse.mp hx)
        · exact ih [] (by simp) t ht2
    · simp only [hd, if_false] at ht
      refine ih (c :: acc) ?_ t ht
      intro x hx
      rcases List.mem_cons.mp hx with rfl | hx2
      · simpa using hd
      · exact hacc x hx2

theorem splitAux_append : ∀ (t rest acc : List Char), (∀ c ∈ t, isDelim c = false) →
    splitAux (t ++ rest) acc = splitAux rest (t.reverse ++ acc) := by
  intro t
  induction t with
  | nil => intro rest acc _; simp
  | cons c t ih =>
    intro rest acc h
    have hc : isDelim c = false := h c (by simp)
    have h2 : ∀ x ∈ t, isDelim x = false := fun x hx => h x (List.mem_cons_of_mem _ hx)
    calc splitAux (c :: t ++ rest) acc = splitAux (t ++ rest) (c :: acc) := by
          simp [splitAux, hc]
      _ = splitAux rest (t.reverse ++ (c :: acc)) := ih rest (c :: acc) h2
      _ = splitAux rest ((c :: t).reverse ++ acc) := by simp

theorem splitAux_delim (d : Char) (hd : isDelim d = true) (rest acc : List Char)
    (ha : acc ≠ []) : splitAux (d :: rest) acc = acc.reverse :: splitAux rest [] := by
  have he : acc.isEmpty = false := by simp [List.isEmpty_iff, ha]
  simp [splitAux, hd, he]

theorem splitAux_all_delims : ∀ l : List Char, (∀ c ∈ l, isDelim c = true) →
    splitAux l [] = [] := by
  intro l
  induction l with
  | nil => intro _; rfl
  | cons c cs ih =>
    intro h
    have hc : isDelim c = true := h c (by simp)
    simp only [splitAux, hc, if_true, List.isEmpty_nil]
    exact ih (fun x hx => h x (List.mem_cons_of_mem _ hx))

theorem splitAux_head : ∀ (l acc : List Char), acc ≠ [] →
    (splitAux l acc).head? = some (acc.reverse ++ l.takeWhile (fun x => !isDelim x)) := by
  intro l
  induction l with
  | nil =>
    intro acc ha
    have he : acc.isEmpty = false := by simp [List.isEmpty_iff, ha]
    simp [splitAux, he]
  | cons c cs ih =>
    intro acc ha
    have he : acc.isEmpty = false := by simp [List.isEmpty_iff, ha]
    by_cases hd : isDelim c
    · have hn : ¬ ((!isDelim c) = true) := by simp [hd]
      simp [splitAux, hd, he, List.takeWhile_cons_of_neg hn]
    · have hd2 : isDelim c = false := by simpa using hd
      have step : splitAux (c :: cs) acc = splitAux cs (c :: acc) := by
        simp [splitAux, hd2]
      have hp : (!isDelim c) = true := by simp [hd2]
      rw [step, ih (c :: acc) (by simp),
        @List.takeWhile_cons_of_pos _ (fun x => !isDelim x) c cs hp]
      simp

theorem split_join : ∀ ts : List (List Char),
    (∀ t ∈ ts, t ≠ [] ∧ ∀ c ∈ t, isDelim c = false) →
    split_line (joinWithSpace ts) = ts := by
  intro ts
  induction ts with
  | nil => intro _; rfl
  | cons t ts ih =>
    intro h
    obtain ⟨ht, hc⟩ := h t (List.mem_cons_self _ _)
    cases ts with
    | nil =>
      show splitAux (joinWithSpace [t]) [] = [t]
      have h1 : joinWithSpace [t] = t := rfl
      rw [h1, ← List.append_nil t, splitAux_append t [] [] hc]
      simp [splitAux, List.isEmpty_iff, ht]
    | cons t2 ts2 =>
      have h2 : joinWithSpace (t :: t2 :: ts2) = t ++ ' ' :: joinWithSpace (t2 :: ts2) := rfl
      show splitAux (joinWithSpace (t :: t2 :: ts2)) [] = t :: t2 :: ts2
      rw [h2, splitAux_append t _ [] hc]
      rw [splitAux_delim ' ' (by decide) _ _ (by simp [ht])]
      have h3 : splitAux (joinWithSpace (t2 :: ts2)) [] = t2 :: ts2 :=
        ih (fun x hx => h x (List.mem_cons_of_mem _ hx))
      rw [h3]
      simp

/-! ### Helper lemma about getline -/

theorem getlineChars_no_newline : ∀ l : List Char, l ≠ [] → '\n' ∉ l →
    getlineChars l = some (l, []) := by
  intro l
  induction l with
  | nil => intro h _; exact absurd rfl h
  | cons c cs ih =>
    intro _ hn
    have hc : ¬ c = '\n' := fun h => hn (by simp [h])
    cases cs with
    | nil => simp [getlineChars, hc]
    | cons d ds =>
      have h2 : getlineChars (d :: ds) = some (d :: ds, []) :=
        ih (by simp) (fun h => hn (List.mem_cons_of_mem _ h))
      rw [getlineChars.eq_def]
      simp [hc, h2]

/-! ### The claims -/

/-- Claim C1: launch always yields Continue (control value 1): when fork
fails it reports the failure to the diagnostic stream and returns at once
without waiting; when fork succeeds it returns exactly when the wait loop
finds a terminal status for the child, and the value returned is 1 whatever
that status (nonzero exit or signal death included). -/
theorem launch_always_continue (lb : LaunchBehavior) (w : World) :
    (∀ r, launch lb w = some r → r.1 = 1) ∧
    (lb.forkOk = false →
      launch lb w =
        some (1, { w with stderr := w.stderr ++ ["Error: Forking process failed"] })) ∧
    (lb.forkOk = true → ((launch lb w).isSome ↔ (waitLoop lb.waits).isSome)) := by
  refine ⟨?_, ?_, ?_⟩
  · intro r hr
    by_cases hf : lb.forkOk
    · cases h : waitLoop lb.waits with
      | none => simp [launch, hf, h] at hr
      | some s => simp [launch, hf, h] at hr; simp [← hr]
    · simp [launch, hf] at hr
      simp [← hr]
  · intro hf
    simp [launch, hf]
  · intro hf
    cases h : waitLoop lb.waits with
    | none => simp [launch, hf, h]
    | some s => simp [launch, hf, h]

/-- Witness for C1 at a failing fork. -/
theorem launch_always_continue_witness :
    launch { forkOk := false, waits := [] } World.init =
      some (1, { World.init with
        stderr := World.init.stderr ++ ["Error: Forking process failed"] }) :=
  (launch_always_continue { forkOk := false, waits := [] } World.init).2.1 rfl

/-- Claim C2: the child branch never falls through into the parent code path,
and when image replacement fails the child reports the failure to the
diagnostic stream and terminates with the nonzero status EXIT_FAILURE. -/
theorem child_never_falls_through (execOk : Bool) :
    childRun execOk ≠ ChildOutcome.fellThrough ∧
    (execOk = false →
      childRun execOk =
        ChildOutcome.exitedWith ["Error: Child process failed"] EXIT_FAILURE ∧
      EXIT_FAILURE ≠ 0) := by
  cases execOk <;> simp [childRun, EXIT_FAILURE]

/-- Witness for C2 at a failing exec. -/
theorem child_never_falls_through_witness :
    childRun false ≠ ChildOutcome.fellThrough ∧
    (childRun false =
        ChildOutcome.exitedWith ["Error: Child process failed"] EXIT_FAILURE ∧
      EXIT_FAILURE ≠ 0) :=
  ⟨(child_never_falls_through false).1, (child_never_falls_through false).2 rfl⟩

/-- Claim C3: the wait loop never returns a merely stopped status: any status
it returns is a true exit or a signal death, and a stopped status at the head
of the sequence is skipped, the loop going on with the rest. -/
theorem waitLoop_skips_stopped :
    (∀ (waits : List WaitStatus) (s : WaitStatus), waitLoop waits = some s →
      WIFSTOPPED s = false ∧ (WIFEXITED s = true ∨ WIFSIGNALED s = true)) ∧
    (∀ (sig : Nat) (rest : List WaitStatus),
      waitLoop (WaitStatus.stopped sig :: rest) = waitLoop rest) := by
  constructor
  · intro waits
    induction waits with
    | nil => intro s hs; simp [waitLoop] at hs
    | cons a rest ih =>
      intro s hs
      by_cases ha : (WIFEXITED a || WIFSIGNALED a) = true
      · rw [waitLoop, if_pos ha] at hs
        obtain rfl : a = s := by injection hs
        cases a with
        | exited code => simp [WIFSTOPPED, WIFEXITED]
        | signaled sig => simp [WIFSTOPPED, WIFSIGNALED]
        | stopped sig => exact absurd ha (by simp [WIFEXITED, WIFSIGNALED])
      · rw [waitLoop, if_neg ha] at hs
        exact ih s hs
  · intro sig rest
    simp [waitLoop, WIFEXITED, WIFSIGNALED]

/-- Witness for C3: a wait sequence that begins stopped ends at the true
exit, which is not a stopped status. -/
theorem waitLoop_skips_stopped_witness :
    WIFSTOPPED (WaitStatus.exited 7) = false ∧
      (WIFEXITED (WaitStatus.exited 7) = true ∨
        WIFSIGNALED (WaitStatus.exited 7) = true) :=
  waitLoop_skips_stopped.1 [WaitStatus.stopped 2, WaitStatus.exited 7]
    (WaitStatus.exited 7) rfl

/-- Claim C4: dispatching a vector whose first word is exit yields the stop
value 0 whatever the trailing arguments and however many there are, and the
world is untouched: the exit builtin does nothing with its arguments. -/
theorem execute_exit_stops (os : OS) (lb : LaunchBehavior) (rest : List String)
    (w : World) : execute os lb ("exit" :: rest) w = some (0, w) := rfl

/-- Claim C5: line acquisition has exactly two failure outcomes — at
end-of-input with no error the process exits at once with the success code 0,
with no builtin invoked and the world untouched; on any other read failure it
reports the error to the diagnostic stream and exits with a nonzero failure
code; a successful read just hands the line back. -/
theorem read_line_failure_outcomes (w : World) :
    read_line ReadEvent.eof w = (ReadLineResult.exited EXIT_SUCCESS, w) ∧
    read_line ReadEvent.failure w =
      (ReadLineResult.exited EXIT_FAILURE,
        { w with stderr := w.stderr ++ ["Error: readline error"] }) ∧
    EXIT_SUCCESS = 0 ∧ EXIT_FAILURE ≠ 0 ∧
    (∀ cs, read_line (ReadEvent.line cs) w = (ReadLineResult.got cs, w)) :=
  ⟨rfl, rfl, rfl, by decide, fun _ => rfl⟩

/-- Claim C6 as stated is false on the code: the help dispatch writes a
header line first and indents the names, so standard output is not exactly
the three builtin names each on its own line. -/
theorem help_output_counterexample :
    (execute OS.noDirs noLaunch ["help"] World.init).map (fun r => r.2.stdout) ≠
      some "cd\nhelp\nexit\n" := by
  decide

/-- Claim C6 amended: dispatching help yields Continue and appends to
standard output exactly a header line followed by the three builtin names,
each on its own line indented by two spaces, and nothing else changes. -/
theorem help_dispatch_output (os : OS) (lb : LaunchBehavior) (w : World) :
    execute os lb ["help"] w = some (1, { w with stdout := w.stdout ++ helpText }) ∧
    helpText = "The following are builtin commands:\n  cd\n  help\n  exit\n" :=
  ⟨rfl, by decide⟩

/-- Claim C7: cd is atomic on error — with no path argument the dispatch
reports an error to the diagnostic stream, leaves the working directory
unchanged and yields Continue; with a path on which the directory change
fails it reports an error, leaves the working directory unchanged and yields
Continue; and cd never returns the stop value. -/
theorem cd_atomic_on_error (os : OS) (p : String) (lb : LaunchBehavior) (w : World) :
    execute os lb ["cd"] w =
      some (1, { w with stderr := w.stderr ++ ["Error: Please specify a directory"] }) ∧
    (os.chdir w.cwd p = none →
      execute os lb ["cd", p] w =
        some (1, { w with stderr := w.stderr ++ ["Error: Failed to change directory"] })) ∧
    (∀ args, (cd os args w).1 = 1) := by
  refine ⟨rfl, ?_, ?_⟩
  · intro h
    have step : execute os lb ["cd", p] w = some (cd os ["cd", p] w) := rfl
    rw [step]
    simp [cd, h]
  · intro args
    rcases h1 : args[1]? with _ | dir
    · simp [cd, h1]
    · rcases h2 : os.chdir w.cwd dir with _ | c <;> simp [cd, h1, h2]

/-- Witness for C7 on an OS where every directory change fails. -/
theorem cd_atomic_on_error_witness :
    execute OS.noDirs noLaunch ["cd", "/nonexistent-xyz"] World.init =
      some (1, { World.init with
        stderr := World.init.stderr ++ ["Error: Failed to change directory"] }) :=
  (cd_atomic_on_error OS.noDirs "/nonexistent-xyz" noLaunch World.init).2.1 rfl

/-- Claim C8: the tokenizer splits on runs of exactly the five delimiter
characters space, tab, carriage return, newline and bell, with no quoting or
escaping: every produced token is nonempty and delimiter-free, an empty or
all-delimiter line yields the empty vector, and a quote character does not
protect a space. -/
theorem tokenizer_splits_on_delims :
    (∀ l : List Char, ∀ t ∈ split_line l, t ≠ [] ∧ ∀ c ∈ t, isDelim c = false) ∧
    (∀ l : List Char, (∀ c ∈ l, isDelim c = true) → split_line l = []) ∧
    (∀ c : Char, isDelim c = true ↔
      (c = ' ' ∨ c = '\t' ∨ c = '\r' ∨ c = '\n' ∨ c = '\x07')) ∧
    split_line "a \"b c\"".data = ["a".data, "\"b".data, "c\"".data] := by
  refine ⟨?_, ?_, ?_, ?_⟩
  · intro l t ht
    exact splitAux_tokens l [] (by simp) t ht
  · intro l h
    exact splitAux_all_delims l h
  · intro c
    simp [isDelim, TOKEN_DELIM]
  · decide

/-- Witness for C8: an all-delimiter line tokenizes to the empty vector. -/
theorem tokenizer_splits_on_delims_witness :
    split_line [' ', '\t', '\n'] = [] :=
  tokenizer_splits_on_delims.2.1 [' ', '\t', '\n'] (by decide)

/-- Claim C9: for a line beginning with a non-delimiter, the first token is
the leading delimiter-free run of the line, and joining the produced tokens
with a single space yields a line that tokenizes back to the same vector
(round-trip up to whitespace normalization). -/
theorem tokenizer_roundtrip :
    (∀ (c : Char) (cs : List Char), isDelim c = false →
      (split_line (c :: cs)).head? =
        some ((c :: cs).takeWhile (fun x => !isDelim x))) ∧
    (∀ l : List Char, split_line (joinWithSpace (split_line l)) = split_line l) := by
  constructor
  · intro c cs hc
    have step : split_line (c :: cs) = splitAux cs [c] := by
      simp [split_line, splitAux, hc]
    have hp : (!isDelim c) = true := by simp [hc]
    rw [step, splitAux_head cs [c] (by simp),
      @List.takeWhile_cons_of_pos _ (fun x => !isDelim x) c cs hp]
    simp
  · intro l
    exact split_join (split_line l) (splitAux_tokens l [] (by simp))

/-- Witness for C9 on a concrete line with a delimiter run. -/
theorem tokenizer_roundtrip_witness :
    (split_line ['l', 's', ' ', ' ', '-', 'a']).head? =
      some (['l', 's', ' ', ' ', '-', 'a'].takeWhile (fun x => !isDelim x)) :=
  tokenizer_roundtrip.1 'l' ['s', ' ', ' ', '-', 'a'] (by decide)

/-- Claim C10: a final line without a trailing newline is still returned by
line acquisition (getline hands back the characters read before end of
input), and the end-of-input success exit is taken only on the following
call, when the read yields no characters at all. -/
theorem last_line_without_newline (l : List Char) (w : World)
    (h1 : l ≠ []) (h2 : '\n' ∉ l) :
    eventOf l = (ReadEvent.line l, []) ∧
    read_line (eventOf l).1 w = (ReadLineResult.got l, w) ∧
    eventOf [] = (ReadEvent.eof, []) ∧
    read_line ReadEvent.eof w = (ReadLineResult.exited EXIT_SUCCESS, w) := by
  have hg : getlineChars l = some (l, []) := getlineChars_no_newline l h1 h2
  refine ⟨by simp [eventOf, hg], ?_, rfl, rfl⟩
  simp [eventOf, hg, read_line]

/-- Witness for C10 on a two-character final line. -/
theorem last_line_without_newline_witness :
    eventOf ['l', 's'] = (ReadEvent.line ['l', 's'], []) ∧
    read_line (eventOf ['l', 's']).1 World.init =
      (ReadLineResult.got ['l', 's'], World.init) ∧
    eventOf [] = (ReadEvent.eof, []) ∧
    read_line ReadEvent.eof World.init =
      (ReadLineResult.exited EXIT_SUCCESS, World.init) :=
  last_line_without_newline ['l', 's'] World.init (by decide) (by decide)
